import Mathlib

/-!
Verification of the sav-rpc channel core (src/channel.js).

The development shallowly embeds the Channel/Sender protocol logic:
JavaScript values are the inductive JVal, the wire envelope is the
structure Envelope, a Channel instance's mutable fields (_actions,
_callbacks, _cid, _channel, _name) form the structure Channel, and the
receive-side dispatch Channel.prototype._recv becomes the pure function
Channel.recv returning the updated state together with the list of
observable events (handler invocations and outbound reply envelopes).
Handlers are represented by a numeric identity plus a behaviour
describing their return shape (plain value, promise-like, or throw);
promise settlement is collapsed into the dispatch step, matching the
single-threaded cooperative model.
-/

namespace SavRpc

/-- JavaScript runtime values, as far as the channel core inspects them:
undefined, null, booleans, numbers, strings, Error instances (carrying a
message), function references (identified by a numeric id), and plain
objects as field lists. -/
inductive JVal where
  | undefined
  | null
  | boolean (b : Bool)
  | num (n : Int)
  | str (s : String)
  | errorObj (message : String)
  | funcRef (fid : Nat)
  | obj (fields : List (String × JVal))

/-- JavaScript truthiness of a JVal. -/
def JVal.truthy : JVal → Bool
  | JVal.undefined => false
  | JVal.null => false
  | JVal.boolean b => b
  | JVal.num n => n != 0
  | JVal.str s => s != ""
  | JVal.errorObj _ => true
  | JVal.funcRef _ => true
  | JVal.obj _ => true

/-- Field lookup in a plain-object field list; a missing field reads as
undefined, as in JavaScript. -/
def getField : List (String × JVal) → String → JVal
  | [], _ => JVal.undefined
  | (k, v) :: rest, p => if k = p then v else getField rest p

/-- Property read on a JVal: object fields are looked up, every other
value yields undefined for the properties the channel core reads. -/
def JVal.getProp : JVal → String → JVal
  | JVal.obj fs, p => getField fs p
  | _, _ => JVal.undefined

/-- The JavaScript expression a || b. -/
def jsOr (a b : JVal) : JVal := if a.truthy then a else b

/-- The JavaScript expression a && b. -/
def jsAnd (a b : JVal) : JVal := if a.truthy then b else a

/-- Association-list lookup (JavaScript object indexed by key). -/
def alookup {κ α : Type} [DecidableEq κ] : List (κ × α) → κ → Option α
  | [], _ => none
  | (k, v) :: rest, key => if k = key then some v else alookup rest key

/-- Association-list key removal (the JavaScript delete operator). -/
def aerase {κ α : Type} [DecidableEq κ] : List (κ × α) → κ → List (κ × α)
  | [], _ => []
  | (k, v) :: rest, key =>
    if k = key then aerase rest key else (k, v) :: aerase rest key

/-- Association-list assignment (JavaScript property assignment:
overwrites any previous binding of the key). -/
def aset {κ α : Type} [DecidableEq κ] (l : List (κ × α)) (key : κ) (v : α) :
    List (κ × α) :=
  (key, v) :: aerase l key

/-- The wire envelope built by Channel.prototype._sendTo:
fields data, channel, from, cid, action. The from field is named
fromName here because from is a Lean keyword. -/
structure Envelope where
  data : JVal
  channel : String
  fromName : String
  cid : Option Nat
  action : String

/-- An inbound transport payload: either not a structured object (the
isObject guard in _recv rejects it) or an envelope-shaped object. -/
inductive JMsg where
  | nonObject (v : JVal)
  | object (e : Envelope)

/-- Settlement of a promise-like value returned by a handler. -/
inductive PromiseOutcome where
  | resolved (v : JVal)
  | rejected (e : JVal)

/-- The observable behaviour of one handler invocation: return a plain
value, return a promise-like value with a settlement, or throw. -/
inductive HandlerResult where
  | ret (v : JVal)
  | retPromise (p : PromiseOutcome)
  | throwErr (e : JVal)

/-- An entry of the action registry (this._actions). A plain entry comes
from Channel.prototype.on and carries the handler's identity and
behaviour. A onceProxy entry comes from Channel.prototype.once: the
arrow-function proxy captures the action name of the enclosing once call
and the wrapped handler fn; on invocation it deletes its own registry
entry and calls fn.apply(null, arguments), where arguments is the
arguments object of the enclosing once call, i.e. (action, fn). The
wrapped handler's result on those fixed arguments is recorded as res;
the proxy itself returns undefined unless fn throws. -/
inductive RegisteredHandler where
  | plain (fid : Nat) (beh : JVal → HandlerResult)
  | onceProxy (action : String) (fid : Nat) (res : HandlerResult)

/-- An entry of the pending-callback table (this._callbacks), stored by
_sendTo as the object literal with fields cb and keepAlive. -/
structure CallbackEntry where
  cb : Nat
  keepAlive : Bool

/-- JavaScript property read on a pending-callback entry object: only
the fields cb and keepAlive were ever assigned, so any other property
(in particular the property listen read by _recv) is undefined. -/
def CallbackEntry.getProp (e : CallbackEntry) (p : String) : JVal :=
  if p = "cb" then JVal.funcRef e.cb
  else if p = "keepAlive" then JVal.boolean e.keepAlive
  else JVal.undefined

/-- The mutable state of one Channel instance: the action registry
(_actions), the pending-callback table (_callbacks), the correlation-id
counter (_cid), the channel name (_channel) and the endpoint name
(_name). -/
structure Channel where
  actions : List (String × RegisteredHandler)
  callbacks : List (Nat × CallbackEntry)
  cid : Nat
  channel : String
  name : String

/-- Channel.prototype.on: this._actions[action] = fn. -/
def Channel.on (st : Channel) (action : String) (fid : Nat)
    (beh : JVal → HandlerResult) : Channel :=
  { st with actions := aset st.actions action (RegisteredHandler.plain fid beh) }

/-- Channel.prototype.off: delete this._actions[action]. -/
def Channel.off (st : Channel) (action : String) : Channel :=
  { st with actions := aerase st.actions action }

/-- Channel.prototype.once: this._actions[action] = proxy, where proxy
deletes the entry and calls fn with the once call's arguments. -/
def Channel.once (st : Channel) (action : String) (fid : Nat)
    (res : HandlerResult) : Channel :=
  { st with actions := aset st.actions action (RegisteredHandler.onceProxy action fid res) }

/-- The reserved callback action marker. -/
def CALLBACK_ACTION : String := "__CALLBACK__"

/-- The cb argument of _sendTo: absent, a callback function, or a
caller-supplied numeric correlation id. -/
inductive CbArg where
  | noCb
  | fn (cbId : Nat)
  | id (c : Nat)

/-- JavaScript truthiness of the cb argument (undefined is falsy, a
function is truthy, a number is truthy iff nonzero). -/
def CbArg.truthyB : CbArg → Bool
  | CbArg.noCb => false
  | CbArg.fn _ => true
  | CbArg.id c => c != 0

/-- Truthiness of the cid field of an envelope (if (recv.cid)). -/
def cidTruthy : Option Nat → Bool
  | none => false
  | some c => c != 0

/-- Channel.prototype._sendTo: builds the envelope with cid undefined;
if cb is truthy and a function, allocates ret.cid = ++this._cid and
registers the pending entry with fields cb and keepAlive; if cb is
truthy but not a function, sets ret.cid = cb; then sends the envelope.
Returns the updated state and the envelope handed to the transport. -/
def Channel.sendTo (st : Channel) (action : String) (data : JVal)
    (cb : CbArg) (keepAlive : Bool) : Channel × Envelope :=
  if cb.truthyB then
    match cb with
    | CbArg.fn cbId =>
      let newCid := st.cid + 1
      ({ st with cid := newCid,
                 callbacks := aset st.callbacks newCid ⟨cbId, keepAlive⟩ },
       { data := data, channel := st.channel, fromName := st.name,
         cid := some newCid, action := action })
    | CbArg.id c =>
      (st, { data := data, channel := st.channel, fromName := st.name,
             cid := some c, action := action })
    | CbArg.noCb =>
      (st, { data := data, channel := st.channel, fromName := st.name,
             cid := none, action := action })
  else
    (st, { data := data, channel := st.channel, fromName := st.name,
           cid := none, action := action })

/-- Observable events of one dispatch step: a pending-callback handler
invocation cb(error, data), an action-handler invocation with its
argument list, an outbound envelope handed to the transport, or an
exception escaping the dispatch boundary (the source never produces
one: every throwing path is inside the try/catch of _recv). -/
inductive Event where
  | invokeCb (cbId : Nat) (error : JVal) (data : JVal)
  | invokeAction (fid : Nat) (args : List JVal)
  | sendEnv (e : Envelope)
  | throwOut (v : JVal)

/-- Whether an event is a handler invocation (action or callback). -/
def Event.isInvocation : Event → Bool
  | Event.invokeCb _ _ _ => true
  | Event.invokeAction _ _ => true
  | _ => false

/-- Whether an event is an outbound envelope. -/
def Event.isSendEnv : Event → Bool
  | Event.sendEnv _ => true
  | _ => false

/-- Whether an event is an exception escaping the dispatch boundary. -/
def Event.isThrowOut : Event → Bool
  | Event.throwOut _ => true
  | _ => false

/-- The local function next of _recv: if the inbound cid is truthy,
normalize an Error-instance err to the plain object with a message
field, and send the reply envelope through _sendTo with the reserved
callback action, payload with fields error (err && newErr) and data, and
cb equal to the inbound cid (a number, so _sendTo reuses it as the
envelope cid without touching the table). Otherwise no reply. -/
def recvNext (st : Channel) (cid : Option Nat) (err data : JVal) : List Event :=
  if cidTruthy cid then
    let newErr := match err with
      | JVal.errorObj m => JVal.obj [("message", JVal.str m)]
      | _ => err
    match cid with
    | some c =>
      [Event.sendEnv (st.sendTo CALLBACK_ACTION
        (JVal.obj [("error", jsAnd err newErr), ("data", data)])
        (CbArg.id c) false).2]
    | none => []
  else []

/-- Invocation of a registry entry act on the inbound data, as performed
by _recv: a plain handler is invoked with the inbound data and yields
its behaviour's result; a once proxy first deletes its own action entry,
then invokes the wrapped handler with the enclosing once call's
arguments (the action name and the handler itself); the proxy returns
undefined unless the wrapped handler throws. Returns the updated state,
the invocation event, and the result seen by the dispatcher. -/
def runAct (st : Channel) (h : RegisteredHandler) (d : JVal) :
    Channel × Event × HandlerResult :=
  match h with
  | RegisteredHandler.plain fid beh =>
    (st, Event.invokeAction fid [d], beh d)
  | RegisteredHandler.onceProxy a fid res =>
    ({ st with actions := aerase st.actions a },
     Event.invokeAction fid [JVal.str a, JVal.funcRef fid],
     match res with
     | HandlerResult.throwErr e => HandlerResult.throwErr e
     | _ => HandlerResult.ret JVal.undefined)

/-- Channel.prototype._recv, the dispatch entry point. Rejects non
objects, envelopes of a different channel, and self-originated
envelopes. For the reserved callback action: looks up the pending entry
by cid; if absent the envelope is dropped; if present, the entry is
deleted unless its listen property is truthy (the stored fields are cb
and keepAlive, so listen is always undefined), and the callback is
invoked with the error and data fields of recv.data || {}. For a normal
action: a missing handler raises the action-not-found Error inside the
try block; a handler is invoked with the inbound data; a promise-like
result settles into next(null, v) or next(err); a plain return yields
next(null, ret); a synchronous throw is caught and yields next(err). -/
def Channel.recv (st : Channel) (msg : JMsg) : Channel × List Event :=
  match msg with
  | JMsg.nonObject _ => (st, [])
  | JMsg.object recv =>
    if recv.channel ≠ st.channel then (st, [])
    else if recv.fromName = st.name then (st, [])
    else if recv.action = CALLBACK_ACTION then
      match recv.cid with
      | none => (st, [])
      | some c =>
        match alookup st.callbacks c with
        | none => (st, [])
        | some cdata =>
          let rdata := jsOr recv.data (JVal.obj [])
          let st1 := if (cdata.getProp "listen").truthy then st
                     else { st with callbacks := aerase st.callbacks c }
          (st1, [Event.invokeCb cdata.cb (rdata.getProp "error") (rdata.getProp "data")])
    else
      match alookup st.actions recv.action with
      | none =>
        (st, recvNext st recv.cid
          (JVal.errorObj
            ("channel \"" ++ st.channel ++ "." ++ st.name ++ "." ++ recv.action
              ++ "\" not found"))
          JVal.undefined)
      | some h =>
        let r := runAct st h recv.data
        match r.2.2 with
        | HandlerResult.ret v =>
          (r.1, r.2.1 :: recvNext r.1 recv.cid JVal.null v)
        | HandlerResult.retPromise (PromiseOutcome.resolved v) =>
          (r.1, r.2.1 :: recvNext r.1 recv.cid JVal.null v)
        | HandlerResult.retPromise (PromiseOutcome.rejected e) =>
          (r.1, r.2.1 :: recvNext r.1 recv.cid e JVal.undefined)
        | HandlerResult.throwErr e =>
          (r.1, r.2.1 :: recvNext r.1 recv.cid e JVal.undefined)

/-- Sequential dispatch of a list of inbound payloads, in delivery
order, accumulating events. -/
def runRecvList : Channel → List JMsg → Channel × List Event
  | st, [] => (st, [])
  | st, m :: rest =>
    ((runRecvList (Channel.recv st m).1 rest).1,
     (Channel.recv st m).2 ++ (runRecvList (Channel.recv st m).1 rest).2)

/-- Sender.prototype.send: delegates to the owning channel's _sendTo. -/
def Sender.send (st : Channel) (action : String) (data : JVal)
    (cb : CbArg) (keepAlive : Bool) : Channel × Envelope :=
  st.sendTo action data cb keepAlive

/-- Settlement of the promise created by Sender.prototype.sendThen when
its registered callback receives (err, data): reject with err when err
is truthy, otherwise resolve with data. -/
def promiseSettle (err data : JVal) : PromiseOutcome :=
  if err.truthy then PromiseOutcome.rejected err else PromiseOutcome.resolved data

/-- Sender.prototype.sendThen: sends with a freshly created callback
function (identified by cbId) and no keepAlive argument; the callback
settles the returned promise via promiseSettle. -/
def Sender.sendThen (st : Channel) (cbId : Nat) (action : String)
    (data : JVal) : Channel × Envelope :=
  Sender.send st action data (CbArg.fn cbId) false

/-- Sender.prototype.dispatch: sendThen of the fixed action dispatch
with payload object fields action and payload. -/
def Sender.dispatch (st : Channel) (cbId : Nat) (method : String)
    (payload : JVal) : Channel × Envelope :=
  Sender.sendThen st cbId "dispatch" (JVal.obj
    [("action", JVal.str method), ("payload", payload)])

/-- Modelled from the spec: the convenience action described in section
4.2, it always calls sendThen with the fixed outer action name dispatch
and the wrapped object carrying the method name and payload. Stated
separately from the source definition so that the refinement claim
compares the two. -/
def Sender.dispatchSpec (st : Channel) (cbId : Nat) (method : String)
    (payload : JVal) : Channel × Envelope :=
  Sender.sendThen st cbId "dispatch" (JVal.obj
    [("action", JVal.str method), ("payload", payload)])

/-- Number of invocations of the action handler identified by fid in an
event list. -/
def countInvokeAction (fid : Nat) : List Event → Nat
  | [] => 0
  | Event.invokeAction f _ :: rest =>
    (if f = fid then 1 else 0) + countInvokeAction fid rest
  | _ :: rest => countInvokeAction fid rest

/-- Number of invocations of the pending callback identified by cbId in
an event list. -/
def countInvokeCb (cbId : Nat) : List Event → Nat
  | [] => 0
  | Event.invokeCb c _ _ :: rest =>
    (if c = cbId then 1 else 0) + countInvokeCb cbId rest
  | _ :: rest => countInvokeCb cbId rest

theorem alookup_aerase_ne {κ α : Type} [DecidableEq κ] (l : List (κ × α))
    (k k' : κ) (h : k ≠ k') : alookup (aerase l k') k = alookup l k := by
  induction l with
  | nil => rfl
  | cons p tl ih =>
    obtain ⟨pk, pv⟩ := p
    by_cases hp : pk = k'
    · subst hp
      have : pk ≠ k := fun hh => h (hh ▸ rfl)
      simp [aerase, alookup, this, ih]
    · by_cases hk : pk = k <;> simp [aerase, alookup, hp, hk, ih, h]

theorem alookup_aerase_self {κ α : Type} [DecidableEq κ] (l : List (κ × α))
    (k : κ) : alookup (aerase l k) k = none := by
  induction l with
  | nil => rfl
  | cons p tl ih =>
    obtain ⟨pk, pv⟩ := p
    by_cases hp : pk = k <;> simp [aerase, alookup, hp, ih]

/-- The events produced by the local next function are either nothing or
a single outbound envelope. -/
theorem recvNext_shape (st : Channel) (c : Option Nat) (err d : JVal) :
    recvNext st c err d = []
      ∨ ∃ env, recvNext st c err d = [Event.sendEnv env] := by
  unfold recvNext
  cases c with
  | none => simp [cidTruthy]
  | some cc =>
    by_cases h : cidTruthy (some cc) = true
    · simp [h]
    · simp [cidTruthy] at h
      simp [cidTruthy, h]

theorem countInvokeAction_recvNext (fid : Nat) (st : Channel)
    (c : Option Nat) (err d : JVal) :
    countInvokeAction fid (recvNext st c err d) = 0 := by
  rcases recvNext_shape st c err d with h | ⟨env, h⟩ <;>
    simp [h, countInvokeAction]

theorem countInvokeCb_recvNext (cbId : Nat) (st : Channel)
    (c : Option Nat) (err d : JVal) :
    countInvokeCb cbId (recvNext st c err d) = 0 := by
  rcases recvNext_shape st c err d with h | ⟨env, h⟩ <;>
    simp [h, countInvokeCb]

theorem recvNext_filter_isInvocation (st : Channel) (c : Option Nat)
    (err d : JVal) :
    (recvNext st c err d).filter (fun ev => ev.isInvocation) = [] := by
  rcases recvNext_shape st c err d with h | ⟨env, h⟩ <;>
    simp [h, Event.isInvocation]

/-- Dispatch of an inbound envelope naming an unregistered action with a
truthy correlation id: the state is unchanged and the only event is the
action-not-found reply envelope, whose error was normalized from the
Error raised inside the try block of the dispatcher. -/
theorem recv_unknown_action (st : Channel) (e : Envelope)
    (hch : e.channel = st.channel) (hfrom : e.fromName ≠ st.name)
    (hact : e.action ≠ CALLBACK_ACTION)
    (hnone : alookup st.actions e.action = none)
    (hcid : cidTruthy e.cid = true) :
    st.recv (JMsg.object e) =
      (st, [Event.sendEnv
        { data := JVal.obj
            [("error", JVal.obj [("message", JVal.str
                ("channel \"" ++ st.channel ++ "." ++ st.name ++ "."
                  ++ e.action ++ "\" not found"))]),
             ("data", JVal.undefined)],
          channel := st.channel, fromName := st.name, cid := e.cid,
          action := CALLBACK_ACTION }]) := by
  obtain ⟨c, hc⟩ : ∃ c, e.cid = some c := by
    cases hcc : e.cid with
    | none => rw [hcc] at hcid; simp [cidTruthy] at hcid
    | some c => exact ⟨c, rfl⟩
  rw [hc] at hcid
  simp [cidTruthy] at hcid
  simp [Channel.recv, hch, hfrom, hact, hnone, recvNext, hc, cidTruthy, hcid,
    Channel.sendTo, CbArg.truthyB, jsAnd, JVal.truthy]

/-- C7: an inbound payload that is not a structured object, or whose
channel field differs from the receiving Channel's channel name, or
whose from field equals the receiving Channel's own endpoint name, makes
the dispatch entry point return with the state (action registry and
pending-callback table included) unchanged and with no events: no
handler invocation and no outbound reply. -/
theorem c7_foreign_envelope_dropped (st : Channel) (msg : JMsg)
    (h : (∃ v, msg = JMsg.nonObject v)
       ∨ (∃ e, msg = JMsg.object e ∧ e.channel ≠ st.channel)
       ∨ (∃ e, msg = JMsg.object e ∧ e.fromName = st.name)) :
    st.recv msg = (st, []) := by
  rcases h with ⟨v, rfl⟩ | ⟨e, rfl, hne⟩ | ⟨e, rfl, heq⟩
  · rfl
  · simp [Channel.recv, hne]
  · by_cases hch : e.channel = st.channel <;> simp [Channel.recv, hch, heq]

def chW7 : Channel :=
  { actions := [], callbacks := [], cid := 0, channel := "demo", name := "A" }

/-- Witness for C7: a non-object payload delivered to a concrete channel
is dropped with no state change and no events. -/
theorem c7_witness :
    Channel.recv chW7 (JMsg.nonObject (JVal.str "junk")) = (chW7, []) :=
  c7_foreign_envelope_dropped chW7 (JMsg.nonObject (JVal.str "junk"))
    (Or.inl ⟨JVal.str "junk", rfl⟩)

/-- C5: an inbound envelope with a truthy correlation id naming an
action with no registered handler invokes no handler, lets no error
escape the dispatch boundary, and sends back exactly one reply envelope
whose error is a plain object with a message field whose string contains
the channel name, the receiving endpoint name and the action name. -/
theorem c5_unknown_action_error_reply (st : Channel) (e : Envelope)
    (hch : e.channel = st.channel) (hfrom : e.fromName ≠ st.name)
    (hact : e.action ≠ CALLBACK_ACTION)
    (hnone : alookup st.actions e.action = none)
    (hcid : cidTruthy e.cid = true) :
    st.recv (JMsg.object e) =
      (st, [Event.sendEnv
        { data := JVal.obj
            [("error", JVal.obj [("message", JVal.str
                ("channel \"" ++ st.channel ++ "." ++ st.name ++ "."
                  ++ e.action ++ "\" not found"))]),
             ("data", JVal.undefined)],
          channel := st.channel, fromName := st.name, cid := e.cid,
          action := CALLBACK_ACTION }])
    ∧ (st.recv (JMsg.object e)).2.filter (fun ev => ev.isInvocation) = []
    ∧ (st.recv (JMsg.object e)).2.filter (fun ev => ev.isThrowOut) = []
    ∧ (∃ a b, "channel \"" ++ st.channel ++ "." ++ st.name ++ "."
          ++ e.action ++ "\" not found" = a ++ st.channel ++ b)
    ∧ (∃ a b, "channel \"" ++ st.channel ++ "." ++ st.name ++ "."
          ++ e.action ++ "\" not found" = a ++ st.name ++ b)
    ∧ (∃ a b, "channel \"" ++ st.channel ++ "." ++ st.name ++ "."
          ++ e.action ++ "\" not found" = a ++ e.action ++ b) := by
  have h1 := recv_unknown_action st e hch hfrom hact hnone hcid
  refine ⟨h1, ?_, ?_, ?_, ?_, ?_⟩
  · rw [h1]; simp [Event.isInvocation]
  · rw [h1]; simp [Event.isThrowOut]
  · exact ⟨"channel \"",
      "." ++ st.name ++ "." ++ e.action ++ "\" not found",
      by simp [String.append_assoc]⟩
  · exact ⟨"channel \"" ++ st.channel ++ ".",
      "." ++ e.action ++ "\" not found",
      by simp [String.append_assoc]⟩
  · exact ⟨"channel \"" ++ st.channel ++ "." ++ st.name ++ ".",
      "\" not found",
      by simp [String.append_assoc]⟩

def chW5 : Channel :=
  { actions := [], callbacks := [], cid := 0, channel := "demo", name := "A" }

def envW5 : Envelope :=
  { data := JVal.undefined, channel := "demo", fromName := "B", cid := some 5,
    action := "nope" }

/-- Witness for C5: the unknown action nope on a concrete channel yields
the identifying action-not-found reply. -/
theorem c5_witness :
    Channel.recv chW5 (JMsg.object envW5) =
      (chW5, [Event.sendEnv
        { data := JVal.obj
            [("error", JVal.obj [("message",
                JVal.str "channel \"demo.A.nope\" not found")]),
             ("data", JVal.undefined)],
          channel := "demo", fromName := "A", cid := some 5,
          action := CALLBACK_ACTION }]) :=
  (c5_unknown_action_error_reply chW5 envW5 rfl (by decide) (by decide)
    rfl rfl).1

/-- C9: an inbound normal-action envelope with no correlation id never
produces an outbound reply envelope, whether the registered handler
returns a plain value, returns a promise-like value that resolves or
rejects, throws, or is absent altogether. -/
theorem c9_fire_and_forget (st : Channel) (e : Envelope)
    (hch : e.channel = st.channel) (hfrom : e.fromName ≠ st.name)
    (hact : e.action ≠ CALLBACK_ACTION)
    (hcid : e.cid = none) :
    (st.recv (JMsg.object e)).2.filter (fun ev => ev.isSendEnv) = [] := by
  have hnil : ∀ (st1 : Channel) (err d : JVal), recvNext st1 e.cid err d = [] := by
    intro st1 err d; rw [hcid]; rfl
  cases hl : alookup st.actions e.action with
  | none => simp [Channel.recv, hch, hfrom, hact, hl, hnil]
  | some hnd =>
    cases hnd with
    | plain fid beh =>
      cases hb : beh e.data with
      | ret v =>
        simp [Channel.recv, hch, hfrom, hact, hl, runAct, hb, hnil,
          Event.isSendEnv]
      | retPromise p =>
        cases p <;>
          simp [Channel.recv, hch, hfrom, hact, hl, runAct, hb, hnil,
            Event.isSendEnv]
      | throwErr er =>
        simp [Channel.recv, hch, hfrom, hact, hl, runAct, hb, hnil,
          Event.isSendEnv]
    | onceProxy a fid res =>
      cases res <;>
        simp [Channel.recv, hch, hfrom, hact, hl, runAct, hnil,
          Event.isSendEnv]

def behW9 : JVal → HandlerResult :=
  fun _ => HandlerResult.throwErr (JVal.errorObj "x")

def chW9 : Channel :=
  { actions := [("b", RegisteredHandler.plain 4 behW9)], callbacks := [],
    cid := 0, channel := "demo", name := "A" }

def envW9 : Envelope :=
  { data := JVal.num 1, channel := "demo", fromName := "B", cid := none,
    action := "b" }

/-- Witness for C9: a throwing handler reached without a correlation id
produces no outbound envelope. -/
theorem c9_witness :
    (Channel.recv chW9 (JMsg.object envW9)).2.filter
      (fun ev => ev.isSendEnv) = [] :=
  c9_fire_and_forget chW9 envW9 rfl (by decide) (by decide) rfl

/-- C6: a registered handler that synchronously throws an Error instance
with message m, or returns a promise-like value rejecting with such an
Error, yields a reply whose error is the plain object with exactly the
field message holding m. -/
theorem c6_error_normalized_roundtrip (st : Channel) (e : Envelope)
    (fid : Nat) (beh : JVal → HandlerResult) (m : String)
    (hch : e.channel = st.channel) (hfrom : e.fromName ≠ st.name)
    (hact : e.action ≠ CALLBACK_ACTION)
    (hreg : alookup st.actions e.action = some (RegisteredHandler.plain fid beh))
    (hcid : cidTruthy e.cid = true)
    (hbeh : beh e.data = HandlerResult.throwErr (JVal.errorObj m)
      ∨ beh e.data
          = HandlerResult.retPromise (PromiseOutcome.rejected (JVal.errorObj m))) :
    (st.recv (JMsg.object e)).2 =
      [Event.invokeAction fid [e.data],
       Event.sendEnv
         { data := JVal.obj [("error", JVal.obj [("message", JVal.str m)]),
                             ("data", JVal.undefined)],
           channel := st.channel, fromName := st.name, cid := e.cid,
           action := CALLBACK_ACTION }] := by
  obtain ⟨c, hc⟩ : ∃ c, e.cid = some c := by
    cases hcc : e.cid with
    | none => rw [hcc] at hcid; simp [cidTruthy] at hcid
    | some c => exact ⟨c, rfl⟩
  rw [hc] at hcid
  simp [cidTruthy] at hcid
  rcases hbeh with hb | hb <;>
    simp [Channel.recv, hch, hfrom, hact, hreg, runAct, hb, recvNext, hc,
      cidTruthy, hcid, Channel.sendTo, CbArg.truthyB, jsAnd, JVal.truthy]

def behW6 : JVal → HandlerResult :=
  fun _ => HandlerResult.throwErr (JVal.errorObj "boom")

def chW6 : Channel :=
  { actions := [("work", RegisteredHandler.plain 3 behW6)], callbacks := [],
    cid := 0, channel := "demo", name := "A" }

def envW6 : Envelope :=
  { data := JVal.num 1, channel := "demo", fromName := "B", cid := some 2,
    action := "work" }

/-- Witness for C6: throwing new Error with message boom yields a reply
whose error message is exactly boom. -/
theorem c6_witness :
    (Channel.recv chW6 (JMsg.object envW6)).2 =
      [Event.invokeAction 3 [JVal.num 1],
       Event.sendEnv
         { data := JVal.obj
             [("error", JVal.obj [("message", JVal.str "boom")]),
              ("data", JVal.undefined)],
           channel := "demo", fromName := "A", cid := some 2,
           action := CALLBACK_ACTION }] :=
  c6_error_normalized_roundtrip chW6 envW6 3 behW6 "boom" rfl (by decide)
    (by decide) rfl rfl (Or.inl rfl)

/-- C4: when a handler registered through once is triggered by any
inbound envelope naming its action, the arrow-function proxy invokes the
wrapped handler with the enclosing once call's arguments object, i.e.
with the action name and the handler itself, independently of the
inbound envelope's data payload (which is therefore never passed to the
wrapped handler); no other handler invocation occurs in the dispatch. -/
theorem c4_once_proxy_captured_arguments (st : Channel) (a : String)
    (fid : Nat) (res : HandlerResult) (e : Envelope)
    (hreg : alookup st.actions a = some (RegisteredHandler.onceProxy a fid res))
    (hacb : a ≠ CALLBACK_ACTION)
    (hch : e.channel = st.channel) (hfrom : e.fromName ≠ st.name)
    (hact : e.action = a) :
    ∃ rest, (st.recv (JMsg.object e)).2
        = Event.invokeAction fid [JVal.str a, JVal.funcRef fid] :: rest
      ∧ rest.filter (fun ev => ev.isInvocation) = [] := by
  have hl : alookup st.actions e.action
      = some (RegisteredHandler.onceProxy a fid res) := by
    rw [hact]; exact hreg
  have hacb1 : e.action ≠ CALLBACK_ACTION := by rw [hact]; exact hacb
  cases res with
  | ret v =>
    exact ⟨recvNext { st with actions := aerase st.actions a } e.cid
        JVal.null JVal.undefined,
      by simp [Channel.recv, hch, hfrom, hacb1, hl, runAct],
      recvNext_filter_isInvocation _ _ _ _⟩
  | retPromise p =>
    exact ⟨recvNext { st with actions := aerase st.actions a } e.cid
        JVal.null JVal.undefined,
      by simp [Channel.recv, hch, hfrom, hacb1, hl, runAct],
      recvNext_filter_isInvocation _ _ _ _⟩
  | throwErr er =>
    exact ⟨recvNext { st with actions := aerase st.actions a } e.cid
        er JVal.undefined,
      by simp [Channel.recv, hch, hfrom, hacb1, hl, runAct],
      recvNext_filter_isInvocation _ _ _ _⟩

def chW4 : Channel :=
  { actions := [("go", RegisteredHandler.onceProxy "go" 3
      (HandlerResult.ret (JVal.str "ignored")))],
    callbacks := [], cid := 0, channel := "demo", name := "A" }

def envW4 : Envelope :=
  { data := JVal.str "payload", channel := "demo", fromName := "B",
    cid := some 9, action := "go" }

/-- Witness for C4: the once proxy passes the action name go and the
wrapped handler itself, not the inbound payload. -/
theorem c4_witness :
    (Channel.recv chW4 (JMsg.object envW4)).2.head? =
      some (Event.invokeAction 3 [JVal.str "go", JVal.funcRef 3]) := by
  obtain ⟨rest, hr, -⟩ := c4_once_proxy_captured_arguments chW4 "go" 3
    (HandlerResult.ret (JVal.str "ignored")) envW4 rfl (by decide) rfl
    (by decide) rfl
  rw [hr]; rfl

/-- C3: a handler registered through once is deleted from the action
registry by its own first invocation (the post-dispatch registry has no
entry for the action and the handler fired exactly once), and a second
inbound envelope naming the same action with a truthy correlation id,
with no re-registration in between, is answered with the action-not-found
reply error. In the source the deletion precedes the wrapped handler
call inside the proxy body. -/
theorem c3_once_fires_at_most_once (st : Channel) (a : String) (fid : Nat)
    (res : HandlerResult) (e1 e2 : Envelope)
    (hreg : alookup st.actions a = some (RegisteredHandler.onceProxy a fid res))
    (hacb : a ≠ CALLBACK_ACTION)
    (h1ch : e1.channel = st.channel) (h1from : e1.fromName ≠ st.name)
    (h1act : e1.action = a)
    (h2ch : e2.channel = st.channel) (h2from : e2.fromName ≠ st.name)
    (h2act : e2.action = a) (h2cid : cidTruthy e2.cid = true) :
    alookup (st.recv (JMsg.object e1)).1.actions a = none
    ∧ countInvokeAction fid (st.recv (JMsg.object e1)).2 = 1
    ∧ ((st.recv (JMsg.object e1)).1.recv (JMsg.object e2)).2 =
        [Event.sendEnv
          { data := JVal.obj
              [("error", JVal.obj [("message", JVal.str
                  ("channel \"" ++ st.channel ++ "." ++ st.name ++ "."
                    ++ a ++ "\" not found"))]),
               ("data", JVal.undefined)],
            channel := st.channel, fromName := st.name, cid := e2.cid,
            action := CALLBACK_ACTION }] := by
  have hl : alookup st.actions e1.action
      = some (RegisteredHandler.onceProxy a fid res) := by
    rw [h1act]; exact hreg
  have hacb1 : e1.action ≠ CALLBACK_ACTION := by rw [h1act]; exact hacb
  have hmain : (st.recv (JMsg.object e1)).1
        = { st with actions := aerase st.actions a }
      ∧ countInvokeAction fid (st.recv (JMsg.object e1)).2 = 1 := by
    cases res <;>
      exact ⟨by simp [Channel.recv, h1ch, h1from, hacb1, hl, runAct],
        by simp [Channel.recv, h1ch, h1from, hacb1, hl, runAct,
          countInvokeAction, countInvokeAction_recvNext]⟩
  have hnf := recv_unknown_action
    { st with actions := aerase st.actions a } e2 h2ch h2from
    (by rw [h2act]; exact hacb)
    (by rw [h2act]; exact alookup_aerase_self st.actions a)
    h2cid
  refine ⟨?_, hmain.2, ?_⟩
  · rw [hmain.1]; exact alookup_aerase_self st.actions a
  · rw [hmain.1, hnf, h2act]

def chW3 : Channel :=
  { actions := [("go", RegisteredHandler.onceProxy "go" 6
      (HandlerResult.ret JVal.undefined))],
    callbacks := [], cid := 0, channel := "demo", name := "A" }

def envW3a : Envelope :=
  { data := JVal.str "x", channel := "demo", fromName := "B", cid := some 1,
    action := "go" }

def envW3b : Envelope :=
  { data := JVal.str "y", channel := "demo", fromName := "B", cid := some 2,
    action := "go" }

/-- Witness for C3: the once handler go fires once, its entry is gone,
and the second envelope receives the action-not-found reply. -/
theorem c3_witness :
    alookup (Channel.recv chW3 (JMsg.object envW3a)).1.actions "go" = none
    ∧ countInvokeAction 6 (Channel.recv chW3 (JMsg.object envW3a)).2 = 1
    ∧ ((Channel.recv chW3 (JMsg.object envW3a)).1.recv (JMsg.object envW3b)).2 =
        [Event.sendEnv
          { data := JVal.obj
              [("error", JVal.obj [("message",
                  JVal.str "channel \"demo.A.go\" not found")]),
               ("data", JVal.undefined)],
            channel := "demo", fromName := "A", cid := some 2,
            action := CALLBACK_ACTION }] :=
  c3_once_fires_at_most_once chW3 "go" 6 (HandlerResult.ret JVal.undefined)
    envW3a envW3b rfl (by decide) rfl (by decide) rfl rfl (by decide) rfl rfl

/-- C8: first conjunct: a reply envelope matching a non-persistent
pending entry deletes the entry (the deletion precedes the handler call
in the source) and invokes its handler with the error and data fields of
the reply payload; second conjunct: a callback-action envelope whose
correlation id has no pending entry is silently dropped, with no handler
invocation, no event at all, and an unchanged state. -/
theorem c8_single_shot_and_unmatched_drop :
    (∀ (st : Channel) (e : Envelope) (c cbId : Nat) (er d : JVal),
      e.channel = st.channel → e.fromName ≠ st.name →
      e.action = CALLBACK_ACTION → e.cid = some c →
      e.data = JVal.obj [("error", er), ("data", d)] →
      alookup st.callbacks c = some ⟨cbId, false⟩ →
      st.recv (JMsg.object e)
          = ({ st with callbacks := aerase st.callbacks c },
             [Event.invokeCb cbId er d])
        ∧ alookup (st.recv (JMsg.object e)).1.callbacks c = none)
    ∧ (∀ (st : Channel) (e : Envelope) (c : Nat),
      e.channel = st.channel → e.fromName ≠ st.name →
      e.action = CALLBACK_ACTION → e.cid = some c →
      alookup st.callbacks c = none →
      st.recv (JMsg.object e) = (st, [])) := by
  constructor
  · intro st e c cbId er d hch hfrom hact hcid hdata hl
    have h1 : st.recv (JMsg.object e)
        = ({ st with callbacks := aerase st.callbacks c },
           [Event.invokeCb cbId er d]) := by
      simp [Channel.recv, hch, hfrom, hact, hcid, hl, hdata, jsOr,
        JVal.truthy, JVal.getProp, getField, CallbackEntry.getProp]
    exact ⟨h1, by rw [h1]; exact alookup_aerase_self st.callbacks c⟩
  · intro st e c hch hfrom hact hcid hl
    simp [Channel.recv, hch, hfrom, hact, hcid, hl]

def chW8 : Channel :=
  { actions := [], callbacks := [(4, ⟨9, false⟩)], cid := 4,
    channel := "demo", name := "A" }

def envW8 : Envelope :=
  { data := JVal.obj [("error", JVal.null), ("data", JVal.str "ok")],
    channel := "demo", fromName := "B", cid := some 4,
    action := CALLBACK_ACTION }

def envW8b : Envelope :=
  { data := JVal.obj [("error", JVal.null), ("data", JVal.str "late")],
    channel := "demo", fromName := "B", cid := some 99,
    action := CALLBACK_ACTION }

/-- Witness for C8: a matching reply consumes the single-shot entry and
invokes its handler; an unmatched correlation id is dropped silently. -/
theorem c8_witness :
    Channel.recv chW8 (JMsg.object envW8)
        = ({ chW8 with callbacks := aerase chW8.callbacks 4 },
           [Event.invokeCb 9 JVal.null (JVal.str "ok")])
    ∧ Channel.recv chW8 (JMsg.object envW8b) = (chW8, []) :=
  ⟨(c8_single_shot_and_unmatched_drop.1 chW8 envW8 4 9 JVal.null
      (JVal.str "ok") rfl (by decide) rfl rfl rfl rfl).1,
   c8_single_shot_and_unmatched_drop.2 chW8 envW8b 99 rfl (by decide)
     rfl rfl rfl⟩

def chC1 : Channel :=
  { actions := [], callbacks := [], cid := 0, channel := "demo", name := "A" }

/-- The state after Sender.send with a callback function and the
keepAlive flag set: the pending entry is registered under the fresh
correlation id 1 with keepAlive true. -/
def chC1sent : Channel :=
  (Sender.send chC1 "ask" (JVal.str "q") (CbArg.fn 7) true).1

def replyC1 : JMsg := JMsg.object
  { data := JVal.obj [("error", JVal.null), ("data", JVal.str "r1")],
    channel := "demo", fromName := "B", cid := some 1,
    action := CALLBACK_ACTION }

/-- C1: evaluation of the code at the failing input. A pending callback
registered with keepAlive set to true is nevertheless deleted by the
first matching reply, and a second reply with the same correlation id
invokes nothing: _sendTo stores the entry with fields cb and keepAlive,
but _recv decides persistence by reading the entry's listen property,
which is never assigned anywhere, so the deletion branch is always
taken. The claim (and the spec) say the entry remains and the handler
fires again; the code drops it. -/
theorem c1_keepAlive_entry_dropped :
    alookup chC1sent.callbacks 1 = some ⟨7, true⟩
    ∧ (chC1sent.recv replyC1).2 = [Event.invokeCb 7 JVal.null (JVal.str "r1")]
    ∧ alookup (chC1sent.recv replyC1).1.callbacks 1 = none
    ∧ ((chC1sent.recv replyC1).1.recv replyC1).2 = [] :=
  ⟨rfl, rfl, rfl, rfl⟩

/-- C10: Sender.dispatch with a method name and payload is the very call
Sender.sendThen of the fixed action dispatch with the wrapped payload
object: equal as operations, equal to the definition modelled from the
spec's words, and the envelope pushed to the transport and the state
change (registration of the promise-settling callback under the fresh
correlation id) are those of the sendThen call. -/
theorem c10_dispatch_is_sendThen (st : Channel) (cbId : Nat) (m : String)
    (p : JVal) :
    Sender.dispatch st cbId m p
        = Sender.sendThen st cbId "dispatch"
            (JVal.obj [("action", JVal.str m), ("payload", p)])
    ∧ Sender.dispatch st cbId m p = Sender.dispatchSpec st cbId m p
    ∧ (Sender.dispatch st cbId m p).2 =
        { data := JVal.obj [("action", JVal.str m), ("payload", p)],
          channel := st.channel, fromName := st.name,
          cid := some (st.cid + 1), action := "dispatch" }
    ∧ (Sender.dispatch st cbId m p).1 =
        { st with cid := st.cid + 1,
                  callbacks := aset st.callbacks (st.cid + 1) ⟨cbId, false⟩ } :=
  ⟨rfl, rfl, rfl, rfl⟩

/-- A reply envelope arriving from the remote endpoint otherName on
channel ch: it carries the reserved callback action, the correlation id
of one outstanding send, and an error/data payload. The tuple components
are the correlation id, the identity of the pending handler the reply is
destined for, and the error and data values. -/
def mkReplyEnv (ch otherName : String) (s : Nat × Nat × JVal × JVal) : JMsg :=
  JMsg.object
    { data := JVal.obj [("error", s.2.2.1), ("data", s.2.2.2)],
      channel := ch, fromName := otherName, cid := some s.1,
      action := CALLBACK_ACTION }

/-- Dispatch of one reply envelope whose correlation id has a pending
entry: the entry is removed (its listen property is undefined) and its
handler is invoked with the error and data fields of the payload. -/
theorem recv_matched_reply (st : Channel) (otherName : String)
    (hne : otherName ≠ st.name) (c cbId : Nat) (ka : Bool) (er d : JVal)
    (hl : alookup st.callbacks c = some ⟨cbId, ka⟩) :
    st.recv (mkReplyEnv st.channel otherName (c, cbId, er, d))
      = ({ st with callbacks := aerase st.callbacks c },
         [Event.invokeCb cbId er d]) := by
  simp [Channel.recv, mkReplyEnv, hne, hl, jsOr, JVal.truthy, JVal.getProp,
    getField, CallbackEntry.getProp]

/-- Sequentially dispatching a list of reply envelopes with pairwise
distinct correlation ids, each matching a pending entry, invokes exactly
the matched handlers, each with its own reply's error and data, in
delivery order. -/
theorem runRecvList_matched_replies (otherName : String)
    (l : List (Nat × Nat × JVal × JVal)) :
    ∀ st : Channel, otherName ≠ st.name →
    (l.map (fun s => s.1)).Nodup →
    (∀ s ∈ l, ∃ ka, alookup st.callbacks s.1 = some ⟨s.2.1, ka⟩) →
    (runRecvList st (l.map (mkReplyEnv st.channel otherName))).2
      = l.map (fun s => Event.invokeCb s.2.1 s.2.2.1 s.2.2.2) := by
  induction l with
  | nil => intro st _ _ _; rfl
  | cons s tl ih =>
    obtain ⟨c, cb, er, d⟩ := s
    intro st hne hnod htab
    obtain ⟨ka, hl⟩ := htab (c, cb, er, d) (List.mem_cons_self _ _)
    have hrecv := recv_matched_reply st otherName hne c cb ka er d hl
    simp only [List.map_cons, List.nodup_cons] at hnod
    have hnotin : ∀ s' ∈ tl, s'.1 ≠ c := by
      intro s' hs' hEq
      exact hnod.1 (hEq ▸ List.mem_map_of_mem (fun s => s.1) hs')
    have htab' : ∀ s' ∈ tl,
        ∃ ka2, alookup (aerase st.callbacks c) s'.1 = some ⟨s'.2.1, ka2⟩ := by
      intro s' hs'
      obtain ⟨ka2, hl2⟩ := htab s' (List.mem_cons_of_mem _ hs')
      exact ⟨ka2, by rw [alookup_aerase_ne _ _ _ (hnotin s' hs')]; exact hl2⟩
    have htail : (runRecvList { st with callbacks := aerase st.callbacks c }
          (tl.map (mkReplyEnv st.channel otherName))).2
        = tl.map (fun s => Event.invokeCb s.2.1 s.2.2.1 s.2.2.2) :=
      ih { st with callbacks := aerase st.callbacks c } hne hnod.2 htab'
    simp only [List.map_cons, runRecvList, hrecv]
    rw [htail]
    rfl

theorem countInvokeCb_map_zero (t : Nat) (l : List (Nat × Nat × JVal × JVal))
    (h : t ∉ l.map (fun s => s.2.1)) :
    countInvokeCb t
      (l.map (fun s => Event.invokeCb s.2.1 s.2.2.1 s.2.2.2)) = 0 := by
  induction l with
  | nil => rfl
  | cons s tl ih =>
    simp only [List.map_cons, List.mem_cons] at h
    push_neg at h
    have hne : s.2.1 ≠ t := fun hEq => h.1 hEq.symm
    simp [countInvokeCb, hne, ih h.2]

theorem countInvokeCb_map_one (l : List (Nat × Nat × JVal × JVal))
    (hnod : (l.map (fun s => s.2.1)).Nodup) (s : Nat × Nat × JVal × JVal)
    (hs : s ∈ l) :
    countInvokeCb s.2.1
      (l.map (fun s => Event.invokeCb s.2.1 s.2.2.1 s.2.2.2)) = 1 := by
  induction l with
  | nil => cases hs
  | cons hd tl ih =>
    simp only [List.map_cons, List.nodup_cons] at hnod
    rcases List.mem_cons.mp hs with rfl | htl
    · simp [countInvokeCb, countInvokeCb_map_zero _ _ hnod.1]
    · have hne : hd.2.1 ≠ s.2.1 := by
        intro hEq
        exact hnod.1 (hEq ▸ List.mem_map_of_mem (fun s => s.2.1) htl)
      simp [countInvokeCb, hne, ih hnod.2 htl]

/-- C2: with N outstanding correlated sends, pairwise distinct
correlation ids and pairwise distinct handlers, each registered in the
pending-callback table, dispatching the N reply envelopes in any
permutation of the send order invokes exactly the matched handlers in
delivery order — each one receiving the error and data payload of the
reply carrying its own correlation id — and every handler is invoked
exactly once. -/
theorem c2_correlation_matching (st : Channel) (otherName : String)
    (hne : otherName ≠ st.name)
    (sent delivered : List (Nat × Nat × JVal × JVal))
    (hperm : delivered.Perm sent)
    (hnodc : (sent.map (fun s => s.1)).Nodup)
    (hnodcb : (sent.map (fun s => s.2.1)).Nodup)
    (htab : ∀ s ∈ sent, ∃ ka, alookup st.callbacks s.1 = some ⟨s.2.1, ka⟩) :
    (runRecvList st (delivered.map (mkReplyEnv st.channel otherName))).2
        = delivered.map (fun s => Event.invokeCb s.2.1 s.2.2.1 s.2.2.2)
    ∧ ∀ s ∈ sent, countInvokeCb s.2.1
        (runRecvList st (delivered.map (mkReplyEnv st.channel otherName))).2
          = 1 := by
  have hnodc2 : (delivered.map (fun s => s.1)).Nodup :=
    ((hperm.map (fun s => s.1)).nodup_iff).mpr hnodc
  have htab2 : ∀ s ∈ delivered,
      ∃ ka, alookup st.callbacks s.1 = some ⟨s.2.1, ka⟩ :=
    fun s hs => htab s (hperm.mem_iff.mp hs)
  have hmap := runRecvList_matched_replies otherName delivered st hne
    hnodc2 htab2
  refine ⟨hmap, ?_⟩
  intro s hs
  rw [hmap]
  exact countInvokeCb_map_one delivered
    (((hperm.map (fun s => s.2.1)).nodup_iff).mpr hnodcb) s
    (hperm.mem_iff.mpr hs)

def chC2base : Channel :=
  { actions := [], callbacks := [], cid := 0, channel := "demo", name := "A" }

/-- The state after two concurrently outstanding sendThen calls: the
pending-callback table holds the handlers 11 and 12 under the fresh
correlation ids 1 and 2. -/
def chC2 : Channel :=
  (Sender.sendThen (Sender.sendThen chC2base 11 "a" (JVal.str "p1")).1
    12 "b" (JVal.str "p2")).1

def sentC2 : List (Nat × Nat × JVal × JVal) :=
  [(1, 11, JVal.null, JVal.str "r1"), (2, 12, JVal.null, JVal.str "r2")]

def deliveredC2 : List (Nat × Nat × JVal × JVal) :=
  [(2, 12, JVal.null, JVal.str "r2"), (1, 11, JVal.null, JVal.str "r1")]

/-- Witness for C2: two outstanding sendThen calls answered in reversed
order still resolve each with its own reply, each handler exactly
once. -/
theorem c2_witness :
    (runRecvList chC2 (deliveredC2.map (mkReplyEnv "demo" "B"))).2
        = [Event.invokeCb 12 JVal.null (JVal.str "r2"),
           Event.invokeCb 11 JVal.null (JVal.str "r1")]
    ∧ countInvokeCb 11
        (runRecvList chC2 (deliveredC2.map (mkReplyEnv "demo" "B"))).2 = 1
    ∧ countInvokeCb 12
        (runRecvList chC2 (deliveredC2.map (mkReplyEnv "demo" "B"))).2 = 1 := by
  have h := c2_correlation_matching chC2 "B" (by decide) sentC2 deliveredC2
    (by unfold deliveredC2 sentC2; exact List.Perm.swap _ _ _)
    (by decide) (by decide)
    (by
      intro s hs
      simp only [sentC2, List.mem_cons, List.not_mem_nil, or_false] at hs
      rcases hs with rfl | rfl
      · exact ⟨false, rfl⟩
      · exact ⟨false, rfl⟩)
  exact ⟨h.1, h.2 (1, 11, JVal.null, JVal.str "r1") (by simp [sentC2]),
    h.2 (2, 12, JVal.null, JVal.str "r2") (by simp [sentC2])⟩

end SavRpc
